import Mathlib

/-!
# Verification of the rego-adventure Quest Content & Policy Verification Engine

Shallow embedding, in Lean 4, of the core of the `ghmer/rego-adventure`
repository: the quest-pack data model and validator (`backend/quest/models.go`
and the length-limit constants file), the quest repository (`LoadPack`,
`GetPack`, `GetAllPacks`, `GetQuestByID`), the policy verifier (`Verify`),
and the fixed-window rate limiter (`internal/http/ratelimiter.go`).

Go `int` values are modelled as `Int`, Go strings as `String` (with Go's
`len` on strings — a UTF-8 byte count — modelled by `goLen`),
Go maps as association lists or functions to `Option`, and arbitrary JSON
values (`any` / `map[string]any`) as an inductive `Json` type.  The external
OPA evaluation engine consumed by the verifier is abstracted as an oracle
parameter, exactly as the spec treats it (an external collaborator).
-/

set_option autoImplicit false
set_option maxRecDepth 8000

namespace RegoAdventure

/-- Arbitrary JSON values, modelling Go `any` values decoded from JSON
(`encoding/json` decodes into `nil`, `bool`, `float64`, `string`,
`[]any`, `map[string]any`; numbers are modelled by `Int` since no claim
depends on float arithmetic). Objects are ordered key/value lists. -/
inductive Json where
  | null : Json
  | bool (b : Bool) : Json
  | num (n : Int) : Json
  | str (s : String) : Json
  | arr (elems : List Json) : Json
  | obj (fields : List (String × Json)) : Json


/-! ## Verifier data model (src: verifier file, `package quest`) -/

/-- `TestPayload` (models.go): `Input any`, `Data map[string]any` with the
Go map's nil-ability modelled by `Option` (`none` = nil map). -/
structure TestPayload where
  Input : Json
  Data : Option (List (String × Json))


/-- `TestCase` (models.go): integer ID, payload, expected boolean outcome. -/
structure TestCase where
  ID : Int
  Payload : TestPayload
  ExpectedOutcome : Bool


/-- `VerificationResult` (verifier file): outcome of a single test case. -/
structure VerificationResult where
  TestID : Int
  Passed : Bool
  Expected : Bool
  Actual : Bool
  Input : Json


/-- `QuestVerificationResult` (verifier file): overall verdict.  The Go
struct's `Results` field is nil when omitted; we model it as a list, with
`[]` for the omitted/nil case (JSON-wise both serialize to no results). -/
structure QuestVerificationResult where
  Passed : Bool
  Error : String
  Results : List VerificationResult


/-- One entry of an OPA result set, as consumed by `Verify`: the code reads
`rs[0].Expressions[0].Value`, so an entry is its list of expression values. -/
def ResultSet : Type := List (List Json)

/-- Outcome of one call to the external evaluation engine `r.Eval(ctx)`,
which the spec treats as an external collaborator.  On failure the verifier
immediately consults `ctx.Err()`; `ctxErr` records the value observed by
that check (`none` = context not cancelled). -/
inductive EvalOutcome where
  | ok (rs : ResultSet) : EvalOutcome
  | err (msg : String) (ctxErr : Option String) : EvalOutcome

/-- `EvalOutcome.ok` discriminator. -/
def EvalOutcome.isOk : EvalOutcome → Bool
  | .ok _ => true
  | .err _ _ => false

/-- Result extraction from a successful evaluation (verifier file, the
`// Check results` block): `actual` starts `false`; if the result set and
its first entry's expression list are non-empty and the first expression
value type-asserts to `bool`, that boolean is used. -/
def extractActual (rs : ResultSet) : Bool :=
  match rs with
  | [] => false
  | exprs :: _ =>
    match exprs with
    | [] => false
    | v :: _ =>
      match v with
      | .bool b => b
      | _ => false

/-- The per-test result row appended by `Verify` after a successful
evaluation of test `t` yielding extracted boolean `actual`. -/
def mkTestResult (t : TestCase) (actual : Bool) : VerificationResult :=
  { TestID := t.ID
    Passed := actual == t.ExpectedOutcome
    Expected := t.ExpectedOutcome
    Actual := actual
    Input := t.Payload.Input }

/-- The loop of `Verify` over `quest.Tests`, with the Go loop's mutable
`results` and `allPassed` as accumulator parameters.  `Except.error e`
models the Go return `(nil, ctx.Err())` (cancellation propagated as the
function's error return); `Except.ok` models a non-nil
`QuestVerificationResult` with nil error return. -/
def verifyLoop (evalTest : TestCase → EvalOutcome) :
    List TestCase → List VerificationResult → Bool →
    Except String QuestVerificationResult
  | [], results, allPassed =>
    .ok { Passed := allPassed, Error := "", Results := results }
  | t :: rest, results, allPassed =>
    match evalTest t with
    | .err msg ctxErr =>
      match ctxErr with
      | some ce => .error ce
      | none =>
        .ok { Passed := false
              Error := "Compilation/Runtime error: " ++ msg
              Results := [] }
    | .ok rs =>
      let actual := extractActual rs
      let passed := actual == t.ExpectedOutcome
      verifyLoop evalTest rest (results ++ [mkTestResult t actual])
        (allPassed && passed)

/-- `Quest` fields used by the verifier (full structure given below with the
validator; the verifier touches only `Query` and `Tests`).  We model
`Verify` as a function of the quest's test list plus the evaluation oracle:
the oracle already closes over the query, the submitted module, the unsafe-
builtins denylist and the per-test store construction, which are all
arguments to the external engine. -/
def Verify (evalTest : TestCase → EvalOutcome) (tests : List TestCase) :
    Except String QuestVerificationResult :=
  verifyLoop evalTest tests [] true

/-! ## Length-limit constants (src: the `String length validation constants`
file, `package quest`) -/

def MaxPackTitle : Nat := 100
def MaxPackDescription : Nat := 500
def MaxPackGenre : Nat := 50
def MaxPackObjective : Nat := 500

def MaxUIGrimoireTitle : Nat := 100
def MaxUIHintButton : Nat := 100
def MaxUIVerifyButton : Nat := 100
def MaxUIMessageSuccess : Nat := 200
def MaxUIMessageFailure : Nat := 200
def MaxUIPerfectScoreMessage : Nat := 1000
def MaxUIPerfectScoreButton : Nat := 100
def MaxUIBeginAdventureButton : Nat := 100

def MaxQuestTitle : Nat := 100
def MaxQuestDescriptionTask : Nat := 1000
def MaxQuestDescriptionLore : Nat := 2000
def MaxQuestHint : Nat := 500
def MaxQuestSolution : Nat := 5000
def MaxQuestTemplate : Nat := 10000

def MaxManualDataModel : Nat := 2000
def MaxManualRegoSnippet : Nat := 5000
def MaxManualExternalLink : Nat := 500

def MaxPrologueItem : Nat := 2000
def MaxEpilogueItem : Nat := 2000

def MaxTestPayloadBytes : Nat := 50000

/-! ## Quest pack data model (src: models.go) -/

/-- `QuestManual` (models.go). -/
structure QuestManual where
  DataModel : String
  RegoSnippet : String
  ExternalLink : String

/-- `Quest` (models.go). -/
structure Quest where
  ID : Int
  Title : String
  DescriptionLore : List String
  DescriptionTask : String
  Manual : QuestManual
  Hints : List String
  Solution : String
  Tests : List TestCase
  ApplyTemplate : Bool
  Template : String
  Query : String

/-- `QuestMeta` (models.go). -/
structure QuestMeta where
  Title : String
  Description : String
  Genre : String
  InitialObjective : String
  FinalObjective : String

/-- `UILabels` (models.go). -/
structure UILabels where
  GrimoireTitle : String
  HintButton : String
  VerifyButton : String
  MessageSuccess : String
  MessageFailure : String
  PerfectScoreMessage : String
  PerfectScoreButtonText : String
  BeginAdventureButton : String

/-- `QuestPack` (models.go), exported fields only.  The unexported
`questMap` index is held by the repository model next to the pack (it is
derived data, invisible to JSON equality of packs). -/
structure QuestPack where
  ID : String
  Meta : QuestMeta
  UILabels : UILabels
  Prologue : List String
  Epilogue : List String
  Quests : List Quest

/-! ## JSON serialization size (models Go stdlib `json.Marshal`, used by the
validator only through byte counts).  Go marshals `map[string]any` with keys
sorted; since permuting object fields never changes the serialized byte
count, and the validator consumes only byte counts, serializing fields in
list order is size-faithful; the `obj` field list stands for the entries of
the Go map. -/

/-- Lower-case hex digit, for `json.Marshal`'s `\u00XX` control escapes. -/
def hexDigit (n : Nat) : Char :=
  if n < 10 then Char.ofNat (48 + n) else Char.ofNat (87 + n)

/-- Escape of one character inside a JSON string, as `json.Marshal` does
(HTML-safe escaping of `<`, `>`, `&` is on by default). -/
def jsonEscChar (c : Char) : String :=
  if c = Char.ofNat 34 then "\\\""
  else if c = Char.ofNat 92 then "\\\\"
  else if c = Char.ofNat 10 then "\\n"
  else if c = Char.ofNat 13 then "\\r"
  else if c = Char.ofNat 9 then "\\t"
  else if c = Char.ofNat 60 ∨ c = Char.ofNat 62 ∨ c = Char.ofNat 38 then
    "\\u00" ++ String.singleton (hexDigit (c.toNat / 16)) ++
      String.singleton (hexDigit (c.toNat % 16))
  else if c.toNat < 32 then
    "\\u00" ++ String.singleton (hexDigit (c.toNat / 16)) ++
      String.singleton (hexDigit (c.toNat % 16))
  else if c.toNat = 0x2028 then "\\u2028"
  else if c.toNat = 0x2029 then "\\u2029"
  else String.singleton c

/-- JSON string literal serialization. -/
def jsonStr (s : String) : String :=
  "\"" ++ String.join (s.data.map jsonEscChar) ++ "\""

mutual

/-- Serialization of a `Json` value, modelling `json.Marshal` output. -/
def jsonSer : Json → String
  | .null => "null"
  | .bool true => "true"
  | .bool false => "false"
  | .num n => toString n
  | .str s => jsonStr s
  | .arr elems => "[" ++ jsonSerArr elems ++ "]"
  | .obj fields => "\x7b" ++ jsonSerObj fields ++ "\x7d"

/-- Comma-joined serialization of array elements. -/
def jsonSerArr : List Json → String
  | [] => ""
  | [x] => jsonSer x
  | x :: y :: xs => jsonSer x ++ "," ++ jsonSerArr (y :: xs)

/-- Comma-joined serialization of object fields. -/
def jsonSerObj : List (String × Json) → String
  | [] => ""
  | [(k, v)] => jsonStr k ++ ":" ++ jsonSer v
  | (k, v) :: f :: fs => jsonStr k ++ ":" ++ jsonSer v ++ "," ++ jsonSerObj (f :: fs)

end

/-- `json.Marshal(test.Payload)`: the struct serializes as
`{"input":<input>}` with `"data"` appended only when the map is non-nil and
non-empty (the `omitempty` tag omits nil and empty maps). -/
def serializePayload (p : TestPayload) : String :=
  "\x7b\"input\":" ++ jsonSer p.Input ++
    (match p.Data with
     | some (f :: fs) => ",\"data\":" ++ jsonSer (.obj (f :: fs))
     | _ => "") ++ "\x7d"

/-! ## Validation library (src: models.go, `Security: Validation and
Sanitization Functions`).  Each check returns `none` on success and
`some msg` on failure, modelling Go's `error` results. -/

/-- Number of bytes of the UTF-8 encoding of a character. -/
def utf8Size (c : Char) : Nat :=
  if c.toNat < 0x80 then 1
  else if c.toNat < 0x800 then 2
  else if c.toNat < 0x10000 then 3
  else 4

/-- Go's `len` on a string: the byte length of its UTF-8 encoding. -/
def goLen (s : String) : Nat :=
  (s.data.map utf8Size).sum

/-- Go's `unicode.IsSpace` on the characters relevant here (the Latin-1
range: space, `\t`, `\n`, `\v`, `\f`, `\r`, NEL, NBSP; the claims are
insensitive to the more exotic Unicode space code points). -/
def isSpaceGo (c : Char) : Bool :=
  c.toNat = 32 ∨ c.toNat = 9 ∨ c.toNat = 10 ∨ c.toNat = 11 ∨
  c.toNat = 12 ∨ c.toNat = 13 ∨ c.toNat = 0x85 ∨ c.toNat = 0xA0

/-- Go's `strings.TrimSpace`: strip leading and trailing whitespace. -/
def trimSpace (s : String) : String :=
  String.mk (((s.data.dropWhile isSpaceGo).reverse.dropWhile isSpaceGo).reverse)

/-- `validateStringLength` (models.go). -/
def validateStringLength (s : String) (max : Nat) (fieldName : String) :
    Option String :=
  if goLen s > max then
    some (fieldName ++ " exceeds maximum length of " ++ toString max ++
      " characters (got " ++ toString (goLen s) ++ ")")
  else
    none

/-- `validateNonEmpty` (models.go). -/
def validateNonEmpty (s : String) (fieldName : String) : Option String :=
  if trimSpace s = "" then some (fieldName ++ " cannot be empty") else none

/-- Character class of the genre regexp `[a-zA-Z0-9\s\-_.,!?']` (models.go);
RE2's `\s` is `[\t\n\f\r ]`. -/
def isGenreChar (c : Char) : Bool :=
  (Char.ofNat 97 ≤ c ∧ c ≤ Char.ofNat 122) ∨
  (Char.ofNat 65 ≤ c ∧ c ≤ Char.ofNat 90) ∨
  (Char.ofNat 48 ≤ c ∧ c ≤ Char.ofNat 57) ∨
  c = Char.ofNat 9 ∨ c = Char.ofNat 10 ∨ c = Char.ofNat 12 ∨
  c = Char.ofNat 13 ∨ c = Char.ofNat 32 ∨
  c = Char.ofNat 45 ∨ c = Char.ofNat 95 ∨ c = Char.ofNat 46 ∨
  c = Char.ofNat 44 ∨ c = Char.ofNat 33 ∨ c = Char.ofNat 63 ∨
  c = Char.ofNat 39

/-- `validateAlphanumericWithSpaces` (models.go): the anchored regexp
`^[...]+$` matches exactly the non-empty strings of allowed characters. -/
def validateAlphanumericWithSpaces (s : String) (fieldName : String) :
    Option String :=
  if s ≠ "" ∧ s.data.all isGenreChar then
    none
  else
    some (fieldName ++
      " contains invalid characters (only alphanumeric and basic punctuation allowed)")

/-- First failure of a sequence of checks, modelling Go's chain of
`if err := ...; err != nil { return err }` early returns. -/
def firstErr : List (Option String) → Option String
  | [] => none
  | some e :: _ => some e
  | none :: rest => firstErr rest

/-- Whether a `Json` value models a Go `nil` interface value. -/
def Json.isNull : Json → Bool
  | .null => true
  | _ => false

/-- The per-test size checks of `validateQuest` (models.go): the payload,
the input when non-nil (`Json.null` models Go nil), and the data map when
non-nil must each serialize to at most `MaxTestPayloadBytes` bytes.  The
`json.Marshal` error branches are unreachable for values decoded from JSON
and have no counterpart in the model. -/
def validateTestSizes (pfx : String) (i : Nat) (test : TestCase) :
    Option String :=
  if goLen (serializePayload test.Payload) > MaxTestPayloadBytes then
    some (pfx ++ " test[" ++ toString i ++ "] payload exceeds maximum size of " ++
      toString MaxTestPayloadBytes ++ " bytes")
  else if test.Payload.Input.isNull = false ∧
      goLen (jsonSer test.Payload.Input) > MaxTestPayloadBytes then
    some (pfx ++ " test[" ++ toString i ++ "] input exceeds maximum size of " ++
      toString MaxTestPayloadBytes ++ " bytes")
  else
    match test.Payload.Data with
    | some fields =>
      if goLen (jsonSer (.obj fields)) > MaxTestPayloadBytes then
        some (pfx ++ " test[" ++ toString i ++ "] data exceeds maximum size of " ++
          toString MaxTestPayloadBytes ++ " bytes")
      else none
    | none => none

/-- `validateQuest` (models.go), the checks in source order with the first
failure returned. -/
def validateQuest (quest : Quest) (questIndex : Nat) : Option String :=
  let pfx := "quest " ++ toString questIndex
  firstErr
    ([validateNonEmpty quest.Title (pfx ++ " title"),
      validateStringLength quest.Title MaxQuestTitle (pfx ++ " title"),
      validateNonEmpty quest.DescriptionTask (pfx ++ " task"),
      validateStringLength quest.DescriptionTask MaxQuestDescriptionTask
        (pfx ++ " task"),
      if quest.DescriptionLore.length = 0 then
        some (pfx ++ " must have at least one lore entry")
      else none] ++
     quest.DescriptionLore.mapIdx (fun i lore =>
       validateStringLength lore MaxQuestDescriptionLore
         (pfx ++ " lore[" ++ toString i ++ "]")) ++
     quest.Hints.mapIdx (fun i hint =>
       validateStringLength hint MaxQuestHint
         (pfx ++ " hint[" ++ toString i ++ "]")) ++
     [if quest.Solution ≠ "" then
        validateStringLength quest.Solution MaxQuestSolution (pfx ++ " solution")
      else none,
      if quest.Template ≠ "" then
        validateStringLength quest.Template MaxQuestTemplate (pfx ++ " template")
      else none,
      validateStringLength quest.Manual.DataModel MaxManualDataModel
        (pfx ++ " manual.data_model"),
      validateStringLength quest.Manual.RegoSnippet MaxManualRegoSnippet
        (pfx ++ " manual.rego_snippet"),
      validateStringLength quest.Manual.ExternalLink MaxManualExternalLink
        (pfx ++ " manual.external_link"),
      if quest.Tests.length = 0 then
        some (pfx ++ " must have at least one test case")
      else none] ++
     quest.Tests.mapIdx (fun i test => validateTestSizes pfx i test))

/-- `validateQuestPack` (models.go), the checks in source order with the
first failure returned (quests are validated with 1-based indices). -/
def validateQuestPack (pack : QuestPack) : Option String :=
  firstErr
    ([validateNonEmpty pack.Meta.Title "pack title",
      validateStringLength pack.Meta.Title MaxPackTitle "pack title",
      validateNonEmpty pack.Meta.Description "pack description",
      validateStringLength pack.Meta.Description MaxPackDescription
        "pack description",
      validateNonEmpty pack.Meta.Genre "pack genre",
      validateStringLength pack.Meta.Genre MaxPackGenre "pack genre",
      validateAlphanumericWithSpaces pack.Meta.Genre "pack genre",
      if pack.Meta.InitialObjective ≠ "" then
        validateStringLength pack.Meta.InitialObjective MaxPackObjective
          "pack initial_objective"
      else none,
      if pack.Meta.FinalObjective ≠ "" then
        validateStringLength pack.Meta.FinalObjective MaxPackObjective
          "pack final_objective"
      else none,
      validateNonEmpty pack.UILabels.GrimoireTitle "ui_labels.grimoire_title",
      validateStringLength pack.UILabels.GrimoireTitle MaxUIGrimoireTitle
        "ui_labels.grimoire_title",
      validateNonEmpty pack.UILabels.HintButton "ui_labels.hint_button",
      validateStringLength pack.UILabels.HintButton MaxUIHintButton
        "ui_labels.hint_button",
      validateNonEmpty pack.UILabels.VerifyButton "ui_labels.verify_button",
      validateStringLength pack.UILabels.VerifyButton MaxUIVerifyButton
        "ui_labels.verify_button",
      validateStringLength pack.UILabels.MessageSuccess MaxUIMessageSuccess
        "ui_labels.message_success",
      validateStringLength pack.UILabels.MessageFailure MaxUIMessageFailure
        "ui_labels.message_failure",
      validateStringLength pack.UILabels.PerfectScoreMessage
        MaxUIPerfectScoreMessage "ui_labels.perfect_score_message",
      validateStringLength pack.UILabels.PerfectScoreButtonText
        MaxUIPerfectScoreButton "ui_labels.perfect_score_button_text",
      validateStringLength pack.UILabels.BeginAdventureButton
        MaxUIBeginAdventureButton "ui_labels.begin_adventure_button",
      if pack.Prologue.length = 0 then
        some "pack must have at least one prologue entry"
      else none] ++
     pack.Prologue.mapIdx (fun i entry =>
       validateStringLength entry MaxPrologueItem
         ("prologue[" ++ toString i ++ "]")) ++
     [if pack.Epilogue.length = 0 then
        some "pack must have at least one epilogue entry"
      else none] ++
     pack.Epilogue.mapIdx (fun i entry =>
       validateStringLength entry MaxEpilogueItem
         ("epilogue[" ++ toString i ++ "]")) ++
     [if pack.Quests.length = 0 then
        some "pack must have at least one quest"
      else none] ++
     pack.Quests.mapIdx (fun i quest => validateQuest quest (i + 1)))

/-! ## Quest repository (src: the `QuestRepository` file, `package quest`).
Go maps are modelled as association lists with insert-replace; lookup and
membership are the observable map operations (Go map iteration order is
unspecified, so list order carries no meaning beyond enumeration). -/

/-- Insert-replace into an association list, modelling Go map assignment
`m[k] = v`. -/
def insertReplace {κ α : Type} [DecidableEq κ] :
    List (κ × α) → κ → α → List (κ × α)
  | [], k, v => [(k, v)]
  | (k', v') :: rest, k, v =>
    if k' = k then (k, v) :: rest else (k', v') :: insertReplace rest k v

/-- Association-list lookup, modelling Go map read `m[k]`. -/
def lookupKey {κ α : Type} [DecidableEq κ] : List (κ × α) → κ → Option α
  | [], _ => none
  | (k', v) :: rest, k => if k' = k then some v else lookupKey rest k

/-- The `questMap` index built by `LoadPack`: each quest inserted under its
`ID`, later quests replacing earlier ones with the same id (Go map
semantics). -/
def buildQuestMap (quests : List Quest) : List (Int × Quest) :=
  quests.foldl (fun m q => insertReplace m q.ID q) []

/-- A stored pack together with its unexported `questMap` index. -/
structure StoredPack where
  pack : QuestPack
  questMap : List (Int × Quest)

/-- `QuestRepository`: the `packs` map. -/
structure QuestRepository where
  packs : List (String × StoredPack)

/-- `NewQuestRepository`. -/
def NewQuestRepository : QuestRepository := ⟨[]⟩

/-- `LoadPack`.  The `json.Unmarshal` step is external; it is modelled by
the `parsed` argument (`none` = parse failure, `some p` = the decoded
`QuestPack` value).  Returns the Go `error` result (`none` = success)
together with the repository state after the call; on any error the
repository is returned unchanged, matching the Go method, which writes
`r.packs` only on the success path. -/
def LoadPack (r : QuestRepository) (id : String) (parsed : Option QuestPack) :
    Option String × QuestRepository :=
  match parsed with
  | none => (some ("failed to parse quests json for " ++ id), r)
  | some parsedPack =>
    let pack := { parsedPack with ID := id }
    match validateQuestPack pack with
    | some e => (some ("validation failed for pack " ++ id ++ ": " ++ e), r)
    | none =>
      (none, ⟨insertReplace r.packs id ⟨pack, buildQuestMap pack.Quests⟩⟩)

/-- `GetPack` (`none` models the Go `(nil, false)` return). -/
def GetPack (r : QuestRepository) (id : String) : Option QuestPack :=
  (lookupKey r.packs id).map StoredPack.pack

/-- `GetAllPacks` (one enumeration of the unordered Go map). -/
def GetAllPacks (r : QuestRepository) : List QuestPack :=
  r.packs.map (fun kv => kv.2.pack)

/-- `GetNumberOfPacks`. -/
def GetNumberOfPacks (r : QuestRepository) : Nat :=
  r.packs.length

/-- `GetQuestByID`. -/
def GetQuestByID (r : QuestRepository) (packID : String) (questID : Int) :
    Option Quest :=
  match lookupKey r.packs packID with
  | none => none
  | some sp => lookupKey sp.questMap questID

/-! ## Rate limiter (src: internal/http/ratelimiter.go).  Time instants and
durations are modelled as `Int` (Go `time.Time` / `time.Duration`
nanoseconds); the `clients` map as a function to `Option`; the mutex is
irrelevant to the sequential functional semantics. -/

/-- `clientLimit`: request count and window start for one client key. -/
structure ClientLimit where
  count : Int
  windowStart : Int

/-- The mutable state of a `RateLimiter` relevant to `checkLimit`: the
`clients` map and the configured `windowDuration`. -/
structure RateLimiterState where
  clients : String → Option ClientLimit
  windowDuration : Int

/-- Update of one entry of the `clients` map. -/
def setClient (st : RateLimiterState) (key : String) (c : ClientLimit) :
    RateLimiterState :=
  { st with clients := fun k => if k = key then some c else st.clients k }

/-- `checkLimit` (ratelimiter.go): returns the allow/deny verdict and the
state after the call.  New client or expired window: reset to
`(count=1, windowStart=now)` and allow; otherwise deny when
`count >= limit`, else increment and allow. -/
def checkLimit (st : RateLimiterState) (clientKey : String) (limit : Int)
    (now : Int) : Bool × RateLimiterState :=
  match st.clients clientKey with
  | none => (true, setClient st clientKey ⟨1, now⟩)
  | some client =>
    if now - client.windowStart ≥ st.windowDuration then
      (true, setClient st clientKey ⟨1, now⟩)
    else if client.count ≥ limit then
      (false, st)
    else
      (true, setClient st clientKey ⟨client.count + 1, client.windowStart⟩)

/-- A sequence of `checkLimit` calls from one client key at the given
times, threading the state; returns the verdicts in order. -/
def runChecks (st : RateLimiterState) (clientKey : String) (limit : Int) :
    List Int → List Bool
  | [] => []
  | t :: ts =>
    let r := checkLimit st clientKey limit t
    r.1 :: runChecks r.2 clientKey limit ts

/-! ## Helper definitions and lemmas for the verifier theorems -/

/-- Whether a `Json` value is a boolean (the `.(bool)` type assertion). -/
def Json.isBool : Json → Bool
  | .bool _ => true
  | _ => false

/-- The boolean the verifier extracts from an evaluation outcome (only
meaningful on the `ok` branch; `err` never reaches extraction). -/
def actualOf : EvalOutcome → Bool
  | .ok rs => extractActual rs
  | .err _ _ => false

/-- The terminal-error message built by `Verify` is never empty: it starts
with the fixed `fmt.Sprintf` prose. -/
theorem errPrefix_ne_empty (msg : String) :
    "Compilation/Runtime error: " ++ msg ≠ "" := by
  intro h
  have h2 : ("Compilation/Runtime error: " ++ msg).data = ([] : List Char) :=
    congrArg String.data h
  simp [String.append] at h2

/-- Stepping `verifyLoop` over a prefix of tests whose evaluations all
succeed: the loop reaches the remaining tests with the prefix's rows
appended to the accumulator and its pass flags folded into `allPassed`. -/
theorem verifyLoop_ok_run (evalTest : TestCase → EvalOutcome)
    (pre : List TestCase) :
    ∀ (rest : List TestCase) (results : List VerificationResult)
      (allPassed : Bool),
    (∀ t ∈ pre, (evalTest t).isOk = true) →
    verifyLoop evalTest (pre ++ rest) results allPassed =
      verifyLoop evalTest rest
        (results ++ pre.map (fun t => mkTestResult t (actualOf (evalTest t))))
        (allPassed &&
          pre.all (fun t => actualOf (evalTest t) == t.ExpectedOutcome)) := by
  induction pre with
  | nil =>
    intro rest results allPassed _
    simp
  | cons t pre ih =>
    intro rest results allPassed h
    have ht : (evalTest t).isOk = true := h t (by simp)
    cases hev : evalTest t with
    | err m c =>
      rw [hev] at ht
      simp [EvalOutcome.isOk] at ht
    | ok rs =>
      have hrest : ∀ t' ∈ pre, (evalTest t').isOk = true := by
        intro t' ht'
        exact h t' (by simp [ht'])
      simp only [List.cons_append, verifyLoop, hev]
      rw [show pre.append rest = pre ++ rest from rfl]
      rw [ih rest (results ++ [mkTestResult t (extractActual rs)])
        (allPassed && (extractActual rs == t.ExpectedOutcome)) hrest]
      simp [List.append_assoc, Bool.and_assoc, actualOf, hev]

/-- If some test's evaluation fails and every observed failure sees an
uncancelled context, the loop returns the terminal-error result. -/
theorem verifyLoop_err_uncancelled (evalTest : TestCase → EvalOutcome) :
    ∀ (tests : List TestCase) (results : List VerificationResult)
      (allPassed : Bool),
    (∃ t ∈ tests, (evalTest t).isOk = false) →
    (∀ t ∈ tests, ∀ m c, evalTest t = .err m c → c = none) →
    ∃ msg, verifyLoop evalTest tests results allPassed =
      .ok { Passed := false
            Error := "Compilation/Runtime error: " ++ msg
            Results := [] } := by
  intro tests
  induction tests with
  | nil =>
    intro results allPassed herr _
    simp at herr
  | cons t rest ih =>
    intro results allPassed herr hctx
    cases hev : evalTest t with
    | err m c =>
      have hc : c = none := hctx t (by simp) m c hev
      subst hc
      exact ⟨m, by simp [verifyLoop, hev]⟩
    | ok rs =>
      have herr' : ∃ t' ∈ rest, (evalTest t').isOk = false := by
        obtain ⟨t', ht', hbad⟩ := herr
        rcases List.mem_cons.mp ht' with h1 | h1
        · subst h1
          rw [hev] at hbad
          simp [EvalOutcome.isOk] at hbad
        · exact ⟨t', h1, hbad⟩
      have hctx' : ∀ t' ∈ rest, ∀ m c, evalTest t' = .err m c → c = none := by
        intro t' ht' m c h
        exact hctx t' (by simp [ht']) m c h
      simpa [verifyLoop, hev] using
        ih (results ++ [mkTestResult t (extractActual rs)])
          (allPassed && (extractActual rs == t.ExpectedOutcome)) herr' hctx'

/-! ## Claim theorems: the verifier -/

/-- **C1.** For every submitted policy (modelled by the evaluation oracle)
and every test list, if evaluation fails on some test case and every
observed failure sees an uncancelled context, `Verify` returns a result
(not a cancellation) with `Passed = false`, a non-empty `Error`, and zero
per-test results — regardless of how many tests evaluated successfully
before the failing one. -/
theorem verify_eval_error_short_circuits (evalTest : TestCase → EvalOutcome)
    (tests : List TestCase)
    (herr : ∃ t ∈ tests, (evalTest t).isOk = false)
    (hctx : ∀ t ∈ tests, ∀ m c, evalTest t = .err m c → c = none) :
    ∃ r, Verify evalTest tests = .ok r ∧
      r.Passed = false ∧ r.Error ≠ "" ∧ r.Results = [] := by
  obtain ⟨msg, hm⟩ := verifyLoop_err_uncancelled evalTest tests [] true herr hctx
  exact ⟨_, hm, rfl, errPrefix_ne_empty msg, rfl⟩

/-- A test case used to instantiate the verifier theorems. -/
def sampleTest : TestCase :=
  { ID := 1
    Payload := { Input := Json.obj [("password", Json.str "secret")], Data := none }
    ExpectedOutcome := true }

/-- Witness for **C1**: a single-test quest whose evaluation fails with an
uncancelled context. -/
theorem verify_eval_error_short_circuits_witness :
    ∃ r, Verify (fun _ => .err "boom" none) [sampleTest] = .ok r ∧
      r.Passed = false ∧ r.Error ≠ "" ∧ r.Results = [] :=
  verify_eval_error_short_circuits (fun _ => .err "boom" none) [sampleTest]
    ⟨sampleTest, by simp, rfl⟩
    (by intro t _ m c h; cases h; rfl)

/-- **C2.** When evaluation succeeds on all N tests, `Verify` returns
exactly the N per-test rows in test order, an empty `Error`, and
`Passed` equal to the AND of the per-test flags (each flag comparing the
extracted boolean to `ExpectedOutcome`); in particular, if every expected
outcome is met, `Passed = true` and every row has `Passed = true`. -/
theorem verify_all_ok (evalTest : TestCase → EvalOutcome)
    (tests : List TestCase)
    (h : ∀ t ∈ tests, (evalTest t).isOk = true) :
    Verify evalTest tests =
      .ok { Passed := tests.all
              (fun t => actualOf (evalTest t) == t.ExpectedOutcome)
            Error := ""
            Results := tests.map
              (fun t => mkTestResult t (actualOf (evalTest t))) } ∧
    (tests.map (fun t => mkTestResult t (actualOf (evalTest t)))).length =
      tests.length ∧
    ((∀ t ∈ tests, actualOf (evalTest t) = t.ExpectedOutcome) →
      tests.all (fun t => actualOf (evalTest t) == t.ExpectedOutcome) = true ∧
      ∀ res ∈ tests.map (fun t => mkTestResult t (actualOf (evalTest t))),
        res.Passed = true) := by
  refine ⟨?_, by simp, ?_⟩
  · have := verifyLoop_ok_run evalTest tests [] [] true h
    simpa [Verify, verifyLoop] using this
  · intro hall
    constructor
    · simp only [List.all_eq_true]
      intro t ht
      simp [hall t ht]
    · intro res hres
      obtain ⟨t, ht, rfl⟩ := List.mem_map.mp hres
      simp [mkTestResult, hall t ht]

/-- Witness for **C2**: a two-test quest whose oracle returns each test's
expected boolean. -/
theorem verify_all_ok_witness :
    Verify (fun t => .ok [[Json.bool t.ExpectedOutcome]])
        [sampleTest, { sampleTest with ID := 2, ExpectedOutcome := false }] =
      .ok { Passed := [sampleTest,
              { sampleTest with ID := 2, ExpectedOutcome := false }].all
              (fun t =>
                actualOf ((fun t => .ok [[Json.bool t.ExpectedOutcome]]) t) ==
                  t.ExpectedOutcome)
            Error := ""
            Results := [sampleTest,
              { sampleTest with ID := 2, ExpectedOutcome := false }].map
              (fun t => mkTestResult t
                (actualOf
                  ((fun t => .ok [[Json.bool t.ExpectedOutcome]]) t))) } ∧
    ([sampleTest, { sampleTest with ID := 2, ExpectedOutcome := false }].map
        (fun t => mkTestResult t
          (actualOf ((fun t => .ok [[Json.bool t.ExpectedOutcome]]) t)))).length =
      [sampleTest, { sampleTest with ID := 2, ExpectedOutcome := false }].length ∧
    ((∀ t ∈ [sampleTest, { sampleTest with ID := 2, ExpectedOutcome := false }],
        actualOf ((fun t => .ok [[Json.bool t.ExpectedOutcome]]) t) =
          t.ExpectedOutcome) →
      [sampleTest, { sampleTest with ID := 2, ExpectedOutcome := false }].all
          (fun t =>
            actualOf ((fun t => .ok [[Json.bool t.ExpectedOutcome]]) t) ==
              t.ExpectedOutcome) = true ∧
      ∀ res ∈ [sampleTest,
          { sampleTest with ID := 2, ExpectedOutcome := false }].map
          (fun t => mkTestResult t
            (actualOf ((fun t => .ok [[Json.bool t.ExpectedOutcome]]) t))),
        res.Passed = true) :=
  verify_all_ok (fun t => .ok [[Json.bool t.ExpectedOutcome]])
    [sampleTest, { sampleTest with ID := 2, ExpectedOutcome := false }]
    (by intro t _; rfl)

/-- **C3.** The actual value recorded for a successfully evaluated test is
the query's boolean result when it yields a boolean, and `false` when the
result set is empty, has no expressions, or yields a non-boolean value;
extraction is total, and the loop records the row and continues rather
than raising an error. -/
theorem extract_actual_coercion (rs : ResultSet) :
    (∀ b exprs rest, rs = (Json.bool b :: exprs) :: rest →
      extractActual rs = b) ∧
    (rs = [] → extractActual rs = false) ∧
    (∀ rest, rs = [] :: rest → extractActual rs = false) ∧
    (∀ v exprs rest, rs = (v :: exprs) :: rest → v.isBool = false →
      extractActual rs = false) ∧
    (∀ (evalTest : TestCase → EvalOutcome) (t : TestCase)
      (rest : List TestCase) (results : List VerificationResult)
      (allPassed : Bool), evalTest t = .ok rs →
      verifyLoop evalTest (t :: rest) results allPassed =
        verifyLoop evalTest rest (results ++ [mkTestResult t (extractActual rs)])
          (allPassed && (extractActual rs == t.ExpectedOutcome))) := by
  refine ⟨?_, ?_, ?_, ?_, ?_⟩
  · rintro b exprs rest rfl
    rfl
  · rintro rfl
    rfl
  · rintro rest rfl
    rfl
  · rintro v exprs rest rfl hv
    cases v <;> first
      | rfl
      | simp [Json.isBool] at hv
  · intro evalTest t rest results allPassed hev
    simp [verifyLoop, hev]

/-- Witness for **C3**: the four coercion cases at concrete result sets. -/
theorem extract_actual_coercion_witness :
    extractActual [[Json.bool true]] = true ∧
    extractActual [] = false ∧
    extractActual [[]] = false ∧
    extractActual [[Json.str "deny"]] = false :=
  ⟨(extract_actual_coercion [[Json.bool true]]).1 true [] [] rfl,
   (extract_actual_coercion []).2.1 rfl,
   (extract_actual_coercion [[]]).2.2.1 [] rfl,
   (extract_actual_coercion [[Json.str "deny"]]).2.2.2.1
     (Json.str "deny") [] [] rfl rfl⟩

/-- **C9.** If evaluation fails at a test reached after a prefix of
successful tests and the context is observed cancelled there, `Verify`
propagates the cancellation as the function's error return (nil result),
never wrapping it into the result's `Error` string. -/
theorem verify_cancellation_propagates (evalTest : TestCase → EvalOutcome)
    (pre post : List TestCase) (t : TestCase) (msg e : String)
    (hpre : ∀ t' ∈ pre, (evalTest t').isOk = true)
    (ht : evalTest t = .err msg (some e)) :
    Verify evalTest (pre ++ t :: post) = .error e := by
  unfold Verify
  rw [verifyLoop_ok_run evalTest pre (t :: post) [] true hpre]
  simp [verifyLoop, ht]

/-- Witness for **C9**: a cancelled evaluation on the first test. -/
theorem verify_cancellation_propagates_witness :
    Verify (fun _ => .err "interrupted" (some "context canceled"))
        ([] ++ sampleTest :: []) = .error "context canceled" :=
  verify_cancellation_propagates
    (fun _ => .err "interrupted" (some "context canceled"))
    [] [] sampleTest "interrupted" "context canceled" (by simp) rfl

/-! ## Concrete packs for witnesses and counterexamples -/

/-- A quest that passes validation. -/
def demoQuest : Quest :=
  { ID := 1
    Title := "First Quest"
    DescriptionLore := ["Long ago"]
    DescriptionTask := "Write the allow rule"
    Manual := { DataModel := "", RegoSnippet := "", ExternalLink := "" }
    Hints := []
    Solution := ""
    Tests := [sampleTest]
    ApplyTemplate := false
    Template := ""
    Query := "data.play.allow" }

/-- Metadata that passes validation. -/
def demoMeta : QuestMeta :=
  { Title := "Demo Pack"
    Description := "A demo pack"
    Genre := "fantasy"
    InitialObjective := ""
    FinalObjective := "" }

/-- UI labels that pass validation. -/
def demoLabels : UILabels :=
  { GrimoireTitle := "Grimoire"
    HintButton := "Hint"
    VerifyButton := "Verify"
    MessageSuccess := "Success"
    MessageFailure := "Failure"
    PerfectScoreMessage := "Perfect"
    PerfectScoreButtonText := "Continue"
    BeginAdventureButton := "Begin" }

/-- A pack that passes validation (its own `ID` field is deliberately a
value `LoadPack` must overwrite). -/
def demoPack : QuestPack :=
  { ID := "id-from-content"
    Meta := demoMeta
    UILabels := demoLabels
    Prologue := ["The beginning"]
    Epilogue := ["The end"]
    Quests := [demoQuest] }

/-- A 201-character string: over the spec table's 200 but within the
code's 1000-character perfect-score-message limit. -/
def longMessage201 : String := String.mk (List.replicate 201 'a')

/-- A 1001-character string: over the code's 1000-character
perfect-score-message limit. -/
def longMessage1001 : String := String.mk (List.replicate 1001 'a')

/-- A 101-character string: over the 100-character pack-title limit. -/
def longTitle101 : String := String.mk (List.replicate 101 'a')

/-- `demoPack` with a 201-character perfect-score message. -/
def demoPackMsg201 : QuestPack :=
  { demoPack with UILabels := { demoLabels with PerfectScoreMessage := longMessage201 } }

/-- `demoPack` with a 1001-character perfect-score message. -/
def demoPackMsg1001 : QuestPack :=
  { demoPack with UILabels := { demoLabels with PerfectScoreMessage := longMessage1001 } }

/-- `demoPack` with a 101-character title (one over the limit). -/
def demoPackBadTitle : QuestPack :=
  { demoPack with Meta := { demoMeta with Title := longTitle101 } }

/-! ## Claim theorems: validation limits (C4) -/

/-- **C4 counterexample.** The claim that every pack-load limit for the
pack title, pack genre and the eight UI labels lies in 50–200 fails:
`MaxUIPerfectScoreMessage` is 1000, and pack load really enforces 1000 for
that label — a pack whose perfect-score message is 201 characters long
validates successfully, and one of 1001 characters is rejected against the
1000 ceiling. -/
theorem ui_label_limit_counterexample :
    MaxUIPerfectScoreMessage = 1000 ∧
    ¬ (50 ≤ MaxUIPerfectScoreMessage ∧ MaxUIPerfectScoreMessage ≤ 200) ∧
    goLen longMessage201 = 201 ∧
    validateQuestPack demoPackMsg201 = none ∧
    validateQuestPack demoPackMsg1001 =
      some ("ui_labels.perfect_score_message exceeds maximum length of 1000 characters (got 1001)") := by
  refine ⟨rfl, by decide, by decide, ?_, ?_⟩ <;> rfl

/-- **C4 (amended).** Every maximum-length limit enforced at pack load for
the pack title, the pack genre and seven of the eight UI label strings lies
between 50 and 200 characters inclusive; the eighth, the perfect-score
message, has limit 1000. -/
theorem ui_label_limits_amended :
    (50 ≤ MaxPackTitle ∧ MaxPackTitle ≤ 200) ∧
    (50 ≤ MaxPackGenre ∧ MaxPackGenre ≤ 200) ∧
    (50 ≤ MaxUIGrimoireTitle ∧ MaxUIGrimoireTitle ≤ 200) ∧
    (50 ≤ MaxUIHintButton ∧ MaxUIHintButton ≤ 200) ∧
    (50 ≤ MaxUIVerifyButton ∧ MaxUIVerifyButton ≤ 200) ∧
    (50 ≤ MaxUIMessageSuccess ∧ MaxUIMessageSuccess ≤ 200) ∧
    (50 ≤ MaxUIMessageFailure ∧ MaxUIMessageFailure ≤ 200) ∧
    (50 ≤ MaxUIPerfectScoreButton ∧ MaxUIPerfectScoreButton ≤ 200) ∧
    (50 ≤ MaxUIBeginAdventureButton ∧ MaxUIBeginAdventureButton ≤ 200) ∧
    MaxUIPerfectScoreMessage = 1000 := by
  decide

/-! ## Helper lemmas for the repository theorems -/

/-- Looking up the freshly written key finds the new value. -/
theorem lookupKey_insertReplace_self {κ α : Type} [DecidableEq κ]
    (m : List (κ × α)) (k : κ) (v : α) :
    lookupKey (insertReplace m k v) k = some v := by
  induction m with
  | nil => simp [insertReplace, lookupKey]
  | cons kv rest ih =>
    obtain ⟨k', v'⟩ := kv
    by_cases h : k' = k
    · subst h
      simp [insertReplace, lookupKey]
    · simp [insertReplace, lookupKey, h, ih]

/-- Looking up any other key is unaffected by a write. -/
theorem lookupKey_insertReplace_ne {κ α : Type} [DecidableEq κ]
    (m : List (κ × α)) (k k' : κ) (v : α) (hne : k' ≠ k) :
    lookupKey (insertReplace m k v) k' = lookupKey m k' := by
  induction m with
  | nil => simp [insertReplace, lookupKey, Ne.symm hne]
  | cons kv rest ih =>
    obtain ⟨k₀, v₀⟩ := kv
    by_cases h : k₀ = k
    · subst h
      simp [insertReplace, lookupKey, Ne.symm hne]
    · simp [insertReplace, lookupKey, h, ih]

/-! ## Claim theorems: the repository -/

/-- **C6.** If validation rejects the (id-overwritten) parsed pack with
message `e`, `LoadPack` returns an error wrapping `e` (which names the
failing field), leaves the stored packs unchanged — hence `GetAllPacks` is
unchanged — and the pack stays absent from `GetPack` when it was not
already present. -/
theorem loadPack_validation_failure (r : QuestRepository) (id : String)
    (p : QuestPack) (e : String)
    (hval : validateQuestPack { p with ID := id } = some e) :
    (LoadPack r id (some p)).1 =
      some ("validation failed for pack " ++ id ++ ": " ++ e) ∧
    (LoadPack r id (some p)).2 = r ∧
    (GetPack r id = none → GetPack (LoadPack r id (some p)).2 id = none) ∧
    GetAllPacks (LoadPack r id (some p)).2 = GetAllPacks r := by
  have h2 : LoadPack r id (some p) =
      (some ("validation failed for pack " ++ id ++ ": " ++ e), r) := by
    simp [LoadPack, hval]
  rw [h2]
  exact ⟨rfl, rfl, fun h => h, rfl⟩

/-- Witness for **C6**: an empty repository and a pack whose title is 101
characters (one over its limit); the error names the pack title field. -/
theorem loadPack_validation_failure_witness :
    (LoadPack NewQuestRepository "p1" (some demoPackBadTitle)).1 =
      some ("validation failed for pack " ++ "p1" ++ ": " ++
        "pack title exceeds maximum length of 100 characters (got 101)") ∧
    (LoadPack NewQuestRepository "p1" (some demoPackBadTitle)).2 =
      NewQuestRepository ∧
    (GetPack NewQuestRepository "p1" = none →
      GetPack (LoadPack NewQuestRepository "p1" (some demoPackBadTitle)).2 "p1" =
        none) ∧
    GetAllPacks (LoadPack NewQuestRepository "p1" (some demoPackBadTitle)).2 =
      GetAllPacks NewQuestRepository :=
  loadPack_validation_failure NewQuestRepository "p1" demoPackBadTitle
    "pack title exceeds maximum length of 100 characters (got 101)" (by rfl)

/-- **C7.** For a parsed pack that validates (after the id overwrite),
`LoadPack` succeeds and `GetPack` with the load id afterwards returns the
parsed pack with its `ID` field set to the `LoadPack` id argument — not to
any id carried by the raw bytes — and all other fields unchanged. -/
theorem loadPack_valid_roundtrip (r : QuestRepository) (id : String)
    (p : QuestPack)
    (hval : validateQuestPack { p with ID := id } = none) :
    (LoadPack r id (some p)).1 = none ∧
    GetPack (LoadPack r id (some p)).2 id = some { p with ID := id } := by
  constructor
  · simp [LoadPack, hval]
  · simp [LoadPack, hval, GetPack, lookupKey_insertReplace_self]

/-- Witness for **C7**: loading `demoPack` (whose own `ID` field is
`"id-from-content"`) under id `"p1"` stores it with `ID = "p1"`. -/
theorem loadPack_valid_roundtrip_witness :
    (LoadPack NewQuestRepository "p1" (some demoPack)).1 = none ∧
    GetPack (LoadPack NewQuestRepository "p1" (some demoPack)).2 "p1" =
      some { demoPack with ID := "p1" } :=
  loadPack_valid_roundtrip NewQuestRepository "p1" demoPack (by rfl)

/-- **C8.** A `LoadPack` call — succeeding or failing — never changes what
`GetPack` returns for any other pack id; its error outcome is independent
of the repository state (so load order is irrelevant to each load's
outcome); and on success the entry keyed by the load id is the one
replaced. -/
theorem loadPack_frame (r : QuestRepository) (id : String)
    (parsed : Option QuestPack) (idOther : String) (hne : idOther ≠ id) :
    GetPack (LoadPack r id parsed).2 idOther = GetPack r idOther ∧
    (∀ r' : QuestRepository, (LoadPack r id parsed).1 = (LoadPack r' id parsed).1) ∧
    (∀ p, parsed = some p → validateQuestPack { p with ID := id } = none →
      GetPack (LoadPack r id parsed).2 id = some { p with ID := id }) := by
  refine ⟨?_, ?_, ?_⟩
  · match parsed with
    | none => rfl
    | some p =>
      cases hvp : validateQuestPack { p with ID := id } with
      | some e => simp [LoadPack, hvp]
      | none =>
        simp [LoadPack, hvp, GetPack, lookupKey_insertReplace_ne _ _ _ _ hne]
  · intro r'
    match parsed with
    | none => rfl
    | some p =>
      cases hvp : validateQuestPack { p with ID := id } with
      | some e => simp [LoadPack, hvp]
      | none => simp [LoadPack, hvp]
  · rintro p rfl hval
    simp [LoadPack, hval, GetPack, lookupKey_insertReplace_self]

/-- Witness for **C8**: loading `demoPack` under `"p1"` into the empty
repository leaves `"p2"` unaffected and stores under `"p1"`. -/
theorem loadPack_frame_witness :
    GetPack (LoadPack NewQuestRepository "p1" (some demoPack)).2 "p2" =
      GetPack NewQuestRepository "p2" ∧
    (∀ r' : QuestRepository,
      (LoadPack NewQuestRepository "p1" (some demoPack)).1 =
        (LoadPack r' "p1" (some demoPack)).1) ∧
    (∀ p, some demoPack = some p →
      validateQuestPack { p with ID := "p1" } = none →
      GetPack (LoadPack NewQuestRepository "p1" (some demoPack)).2 "p1" =
        some { p with ID := "p1" }) :=
  loadPack_frame NewQuestRepository "p1" (some demoPack) "p2" (by decide)

/-! ## Helper lemma for the rate-limiter sequence property -/

/-- Counting behaviour of a run of checks inside one open window: starting
from an active entry `(count = k, windowStart = t0)`, with every check time
strictly within the window, the first `L - k` checks are allowed and all
later ones denied (the count increments only while below the limit and the
window start never moves). -/
theorem runChecks_active_window (key : String) (L : Nat) (t0 : Int) :
    ∀ (ts : List Int) (st : RateLimiterState) (k : Nat),
    st.clients key = some ⟨(k : Int), t0⟩ →
    (∀ t ∈ ts, t - t0 < st.windowDuration) →
    runChecks st key (L : Int) ts =
      List.replicate (min (L - k) ts.length) true ++
        List.replicate (ts.length - (L - k)) false := by
  intro ts
  induction ts with
  | nil =>
    intro st k _ _
    simp [runChecks]
  | cons t ts ih =>
    intro st k hcl hw
    have hwt : ¬ st.windowDuration ≤ t - t0 := not_le.mpr (hw t (by simp))
    by_cases hk : (L : Int) ≤ (k : Int)
    · have hkn : L ≤ k := by exact_mod_cast hk
      have hLk : L - k = 0 := by omega
      have hstep : runChecks st key (L : Int) (t :: ts) =
          false :: runChecks st key (L : Int) ts := by
        simp [runChecks, checkLimit, hcl, hwt, hk]
      rw [hstep, ih st k hcl (fun t' ht' => hw t' (by simp [ht']))]
      simp [hLk, List.replicate_succ]
    · have hkn : k < L := by
        have : ¬ L ≤ k := fun h => hk (by exact_mod_cast h)
        omega
      have hinc : ¬ ((k : Int) ≥ (L : Int)) := hk
      have hstep : runChecks st key (L : Int) (t :: ts) =
          true :: runChecks (setClient st key ⟨(k : Int) + 1, t0⟩) key (L : Int) ts := by
        simp [runChecks, checkLimit, hcl, hwt, hinc]
      have hcl' : (setClient st key ⟨(k : Int) + 1, t0⟩).clients key =
          some ⟨((k + 1 : Nat) : Int), t0⟩ := by
        simp [setClient]
      have hw' : ∀ t' ∈ ts,
          t' - t0 < (setClient st key ⟨(k : Int) + 1, t0⟩).windowDuration := by
        intro t' ht'
        exact hw t' (by simp [ht'])
      rw [hstep, ih (setClient st key ⟨(k : Int) + 1, t0⟩) (k + 1) hcl' hw']
      have h1 : min (L - k) (ts.length + 1) = min (L - (k + 1)) ts.length + 1 := by
        omega
      have h2 : ts.length + 1 - (L - k) = ts.length - (L - (k + 1)) := by
        omega
      simp [List.length_cons, h1, h2, List.replicate_succ]

/-! ## Claim theorems: the rate limiter -/

/-- **C5.** The fixed-window counter: a check with no entry, or made at
least one window after the stored `windowStart`, resets the entry to
`(count = 1, windowStart = now)` and allows; within the window a check is
allowed exactly while `count < limit` (incrementing the count, never moving
the window start) and denied — with no state change — once
`count ≥ limit`; consequently, from a fresh window, exactly `L` consecutive
checks inside the window succeed and the `(L+1)`-th is denied. -/
theorem checkLimit_fixed_window (st : RateLimiterState) (key : String)
    (limit : Int) (now : Int) :
    (st.clients key = none →
      checkLimit st key limit now = (true, setClient st key ⟨1, now⟩)) ∧
    (∀ c, st.clients key = some c → now - c.windowStart ≥ st.windowDuration →
      checkLimit st key limit now = (true, setClient st key ⟨1, now⟩)) ∧
    (∀ c, st.clients key = some c → now - c.windowStart < st.windowDuration →
      ((checkLimit st key limit now).1 = true ↔ c.count < limit) ∧
      (c.count < limit →
        (checkLimit st key limit now).2 =
          setClient st key ⟨c.count + 1, c.windowStart⟩) ∧
      (c.count ≥ limit → checkLimit st key limit now = (false, st))) ∧
    (∀ (L : Nat) (t0 : Int) (rest : List Int), 1 ≤ L →
      st.clients key = none → rest.length = L →
      (∀ t ∈ rest, t0 ≤ t ∧ t - t0 < st.windowDuration) →
      runChecks st key (L : Int) (t0 :: rest) =
        List.replicate L true ++ [false]) := by
  refine ⟨?_, ?_, ?_, ?_⟩
  · intro h
    simp [checkLimit, h]
  · intro c hc hw
    simp [checkLimit, hc, hw]
  · intro c hc hw
    have hw' : ¬ st.windowDuration ≤ now - c.windowStart := not_le.mpr hw
    refine ⟨?_, ?_, ?_⟩
    · constructor
      · intro hall
        by_contra hlt
        have hge : c.count ≥ limit := not_lt.mp hlt
        simp [checkLimit, hc, hw', hge] at hall
      · intro hlt
        have hge : ¬ (c.count ≥ limit) := not_le.mpr hlt
        simp [checkLimit, hc, hw', hge]
    · intro hlt
      have hge : ¬ (c.count ≥ limit) := not_le.mpr hlt
      simp [checkLimit, hc, hw', hge]
    · intro hge
      simp [checkLimit, hc, hw', hge]
  · intro L t0 rest hL hnone hlen hrest
    have hstep : runChecks st key (L : Int) (t0 :: rest) =
        true :: runChecks (setClient st key ⟨1, t0⟩) key (L : Int) rest := by
      simp [runChecks, checkLimit, hnone]
    have hcl1 : (setClient st key ⟨1, t0⟩).clients key =
        some ⟨((1 : Nat) : Int), t0⟩ := by
      simp [setClient]
    have hw1 : ∀ t ∈ rest, t - t0 < (setClient st key ⟨1, t0⟩).windowDuration := by
      intro t ht
      exact (hrest t ht).2
    rw [hstep, runChecks_active_window key L t0 rest _ 1 hcl1 hw1, hlen]
    have h1 : min (L - 1) L = L - 1 := by omega
    have h2 : L - (L - 1) = 1 := by omega
    rw [h1, h2]
    have h3 : L = (L - 1) + 1 := by omega
    rw [h3]
    simp [List.replicate_succ]

/-- Witness for **C5**: limit 2, window 60, a fresh key checked at times
0, 10, 20 — the first two checks pass, the third is denied. -/
theorem checkLimit_fixed_window_witness :
    runChecks ⟨fun _ => none, 60⟩ "10.0.0.1:api" ((2 : Nat) : Int) [0, 10, 20] =
      [true, true, false] :=
  (checkLimit_fixed_window ⟨fun _ => none, 60⟩ "10.0.0.1:api"
      ((2 : Nat) : Int) 0).2.2.2 2 0 [10, 20]
    (by omega) rfl rfl (by decide)

/-- **C10.** The first check for a key with no entry, or any check made at
least one window past the stored window start, is always allowed — the
limit, even zero or negative, is never consulted on the reset path — and
leaves the entry at `(count = 1, windowStart = now)`. -/
theorem checkLimit_first_always_allowed (st : RateLimiterState) (key : String)
    (limit : Int) (now : Int)
    (h : st.clients key = none ∨
      ∃ c, st.clients key = some c ∧ now - c.windowStart ≥ st.windowDuration) :
    (checkLimit st key limit now).1 = true ∧
    (checkLimit st key limit now).2.clients key = some ⟨1, now⟩ := by
  rcases h with h | ⟨c, hc, hw⟩
  · simp [checkLimit, h, setClient]
  · simp [checkLimit, hc, hw, setClient]

/-- Witness for **C10**: a fresh key under a negative limit is allowed. -/
theorem checkLimit_first_always_allowed_witness :
    (checkLimit ⟨fun _ => none, 60⟩ "10.0.0.2:frontend" (-1) 5).1 = true ∧
    (checkLimit ⟨fun _ => none, 60⟩ "10.0.0.2:frontend" (-1) 5).2.clients
      "10.0.0.2:frontend" = some ⟨1, 5⟩ :=
  checkLimit_first_always_allowed ⟨fun _ => none, 60⟩ "10.0.0.2:frontend"
    (-1) 5 (Or.inl rfl)

end RegoAdventure
